import Mathlib

/-!
Verification of the TrancheReady risk-scoring and evidence-manifest pipeline.

This file is a shallow embedding of the core pipeline of the repository:
header normalization (`src/lib/csv-normalize.js`), transaction
coercion/validation (`normalizeTransactions`), the rule engine / scorer
(`scoreAll` in `src/lib/rules.js`), the case builder (`src/lib/cases.js`)
and the manifest builder (`src/lib/manifest.js`), composed as in
`src/server.js`.

Modelling conventions:
* calendar dates are day numbers (`Int`, days since the Unix epoch,
  computed with the standard civil-calendar algorithm); `date-fns`'s
  `parseISO` is modelled on the calendar-date form `YYYY-MM-DD`, the only
  form the pipeline itself emits and re-parses;
* JavaScript numbers that the pipeline produces are modelled as `ℚ`
  (`null`/`NaN` becomes `Option.none`); machine floats never overflow on
  the integral amounts involved, so exact rationals are faithful;
* JavaScript objects that carry a fixed set of fields become structures
  with `Option String` fields (a CSV cell is a string; an absent field is
  `none`); dynamic string-keyed objects (header rows) become ordered
  association lists with JS insertion-order update semantics;
* byte buffers are `List Nat` (each entry a byte);
* the wall clock (`new Date()`) is an explicit `nowDay`/`now` parameter;
* the external Ed25519 signer (`tweetnacl`) is an explicit function
  parameter returning `Option` (`none` models a thrown error).
-/

/-- ASCII lower-casing of one character (JS `toLowerCase` on the ASCII
vocabulary the pipeline uses). -/
def charLower (c : Char) : Char :=
  if 65 <= c.toNat && c.toNat <= 90 then Char.ofNat (c.toNat + 32) else c

/-- ASCII upper-casing of one character (JS `toUpperCase`). -/
def charUpper (c : Char) : Char :=
  if 97 <= c.toNat && c.toNat <= 122 then Char.ofNat (c.toNat - 32) else c

def strLower (s : String) : String := String.mk (s.data.map charLower)

def strUpper (s : String) : String := String.mk (s.data.map charUpper)

def isWsp (c : Char) : Bool := c == ' ' || c == '\t' || c == '\n' || c == '\r'

/-- JS `String.prototype.trim` (whitespace stripped from both ends). -/
def strTrim (s : String) : String :=
  String.mk (((s.data.dropWhile isWsp).reverse.dropWhile isWsp).reverse)

/-- JS `String.prototype.includes`: `startsWithL pat s` holds when `pat`
is a prefix of the character list `s`. -/
def startsWithL : List Char → List Char → Bool
  | [], _ => true
  | _ :: _, [] => false
  | p :: ps, c :: cs => p == c && startsWithL ps cs

/-- Substring test on character lists (model of JS `includes`). -/
def hasSubL (pat : List Char) : List Char → Bool
  | [] => startsWithL pat []
  | c :: cs => startsWithL pat (c :: cs) || hasSubL pat cs

/-- JS `s.includes(pat)`. -/
def strIncludes (s pat : String) : Bool := hasSubL pat.toList s.toList

/-- The `lower` helper of `csv-normalize.js`:
`(s ?? '').toString().trim().toLowerCase()`. -/
def jsLower (o : Option String) : String := strLower (strTrim (o.getD ""))

/-- JS `a || b` on an optional string with a string default: the empty
string is falsy and falls through to the default. -/
def jsOrStr (o : Option String) (d : String) : String :=
  match o with
  | some s => if s == "" then d else s
  | none => d

/-- JS `a || null` on an optional string: empty string collapses to null. -/
def jsOrOpt (o : Option String) : Option String :=
  match o with
  | some s => if s == "" then none else some s
  | none => none

/-- JS falsiness of an optional string (`!s`): null or empty. -/
def jsStrFalsy (o : Option String) : Bool :=
  match o with
  | some s => s == ""
  | none => true

/-- Digit-list value, most significant first. -/
def digitsToNat (cs : List Char) : Nat :=
  cs.foldl (fun acc c => acc * 10 + (c.toNat - 48)) 0

/-- The amount strip of `csv-normalize.js`:
`t.amount.replace(/[^0-9.-]/g, '')`. -/
def stripNonNumeric (s : String) : List Char :=
  s.toList.filter fun c => c.isDigit || c == '.' || c == '-'

/-- Split a character list at the first `.`, if any. -/
def splitAtDot : List Char → List Char × Option (List Char)
  | [] => ([], none)
  | c :: rest =>
    if c == '.' then ([], some rest)
    else
      let p := splitAtDot rest
      (c :: p.1, p.2)

/-- JS `Number(...)` on an unsigned string drawn from the characters
`[0-9.-]`: `digits`, `digits.digits`, `digits.` or `.digits`; anything
else (stray `-` or second `.`) is `NaN`, modelled as `none`. -/
def jsUnsignedNumber (cs : List Char) : Option ℚ :=
  let p := splitAtDot cs
  match p.2 with
  | none =>
    if p.1.all Char.isDigit && !p.1.isEmpty then some (digitsToNat p.1 : ℚ) else none
  | some fp =>
    if p.1.all Char.isDigit && fp.all Char.isDigit && !(p.1.isEmpty && fp.isEmpty) then
      some ((digitsToNat p.1 : ℚ) + (digitsToNat fp : ℚ) / (10 ^ fp.length : ℚ))
    else none

/-- Model of `Number(t.amount.replace(/[^0-9.-]/g, ''))` on a string
input: strip, then JS numeric-literal semantics (`''` is `0`, a leading
`-` negates, malformed input is `NaN` = `none`). -/
def jsNumberOfString (s : String) : Option ℚ :=
  match stripNonNumeric s with
  | [] => some 0
  | c :: rest =>
    if c == '-' then (jsUnsignedNumber rest).map fun q => -q
    else jsUnsignedNumber (c :: rest)

/-- Proleptic-Gregorian leap-year test. -/
def isLeapYear (y : Int) : Bool := (y % 4 == 0 && y % 100 != 0) || y % 400 == 0

/-- Days in a month of the civil calendar. -/
def daysInMonth (y m : Int) : Int :=
  if m == 2 then (if isLeapYear y then 29 else 28)
  else if m == 4 || m == 6 || m == 9 || m == 11 then 30
  else 31

/-- Days since the Unix epoch of a civil date (Howard Hinnant's
`days_from_civil`); this is the day number a JS `Date` holds for a
`YYYY-MM-DD` parse. -/
def daysFromCivil (y m d : Int) : Int :=
  let y1 := if m <= 2 then y - 1 else y
  let era := (if y1 >= 0 then y1 else y1 - 399) / 400
  let yoe := y1 - era * 400
  let mp := (m + 9) % 12
  let doy := (153 * mp + 2) / 5 + d - 1
  let doe := yoe * 365 + yoe / 4 - yoe / 100 + doy
  era * 146097 + doe - 719468

/-- Civil date of a day number (Howard Hinnant's `civil_from_days`). -/
def civilFromDays (z0 : Int) : Int × Int × Int :=
  let z := z0 + 719468
  let era := (if z >= 0 then z else z - 146096) / 146097
  let doe := z - era * 146097
  let yoe := (doe - doe / 1460 + doe / 36524 - doe / 146096) / 365
  let y := yoe + era * 400
  let doy := doe - (365 * yoe + yoe / 4 - yoe / 100)
  let mp := (5 * doy + 2) / 153
  let d := doy - (153 * mp + 2) / 5 + 1
  let m := mp + (if mp < 10 then 3 else -9)
  (if m <= 2 then y + 1 else y, m, d)

/-- Model of `date-fns` `subMonths`: step the month index back, clamping
the day-of-month to the target month's length. -/
def subMonthsDay (day : Int) (n : Int) : Int :=
  let c := civilFromDays day
  let t := c.1 * 12 + (c.2.1 - 1) - n
  let y2 := Int.fdiv t 12
  let m2 := Int.emod t 12 + 1
  daysFromCivil y2 m2 (min c.2.2 (daysInMonth y2 m2))

/-- Model of `date-fns` `parseISO` restricted to the calendar-date form
`YYYY-MM-DD` (the form the pipeline emits and re-parses): a valid
calendar date yields its day number, anything else `none` (an invalid
`Date`). -/
def parseISODate (s : String) : Option Int :=
  match s.toList with
  | [y1, y2, y3, y4, h1, m1, m2, h2, d1, d2] =>
    if h1 == '-' && h2 == '-' && [y1, y2, y3, y4, m1, m2, d1, d2].all Char.isDigit then
      let y : Int := (digitsToNat [y1, y2, y3, y4] : Int)
      let m : Int := (digitsToNat [m1, m2] : Int)
      let d : Int := (digitsToNat [d1, d2] : Int)
      if 1 <= m && m <= 12 && 1 <= d && d <= daysInMonth y m then
        some (daysFromCivil y m d)
      else none
    else none
  | _ => none

/-- The `daysBetween` helper of `lib/utils.js`: absolute calendar-day
difference of two ISO strings, `none` when either fails to parse. -/
def daysBetween (a b : String) : Option Nat :=
  match parseISODate a, parseISODate b with
  | some x, some y => some (x - y).natAbs
  | _, _ => none

/-- The `monthsBetween` helper of `lib/utils.js`:
`floor(daysBetween / 30)`. -/
def monthsBetween (a b : String) : Option Nat :=
  (daysBetween a b).map fun d => d / 30

/-- Header-normalized raw transaction row (`csv-normalize.js` after
`mapHeaders`): every field is an optional CSV string. -/
structure RawTx where
  tx_id : Option String := none
  client_id : Option String := none
  date : Option String := none
  amount : Option String := none
  currency : Option String := none
  direction : Option String := none
  method : Option String := none
  counterparty_name : Option String := none
  counterparty_country : Option String := none
  matter_id : Option String := none
deriving Repr, DecidableEq

/-- Accepted (coerced) transaction. The `date` field holds the parsed day
number; the JS code stores the `YYYY-MM-DD` slice and re-parses it, which
is the identity on day numbers. -/
structure Tx where
  tx_id : Option String := none
  client_id : String := ""
  date : Int := 0
  amount : ℚ := 0
  currency : String := "AUD"
  direction : Option String := none
  method : Option String := none
  counterparty_name : Option String := none
  counterparty_country : Option String := none
  matter_id : Option String := none
deriving Repr, DecidableEq

def CASH_KEYS : List String := ["cash", "notes", "branch_cash"]
def OUT_KEYS : List String := ["out", "debit", "send"]
def IN_KEYS : List String := ["in", "credit", "receive"]

/-- Direction coercion of `normalizeTransactions`: keyword substring
match, exact `in`/`out` pass-through, otherwise null. -/
def classifyDirection (raw : Option String) : Option String :=
  let dirRaw := jsLower raw
  if OUT_KEYS.any (fun k => strIncludes dirRaw k) then some "out"
  else if IN_KEYS.any (fun k => strIncludes dirRaw k) then some "in"
  else if dirRaw == "in" || dirRaw == "out" then some dirRaw
  else none

/-- Method coercion of `normalizeTransactions`: keyword substring match
in priority order, unmatched non-empty value kept verbatim, empty null. -/
def classifyMethod (raw : Option String) : Option String :=
  let mRaw := jsLower raw
  if CASH_KEYS.any (fun k => strIncludes mRaw k) then some "cash"
  else if strIncludes mRaw "wire" || strIncludes mRaw "swift" || strIncludes mRaw "intl" then
    some "wire"
  else if strIncludes mRaw "eft" || strIncludes mRaw "ach" || strIncludes mRaw "transfer" then
    some "eft"
  else if strIncludes mRaw "cheque" || strIncludes mRaw "check" then some "cheque"
  else if strIncludes mRaw "mo" || strIncludes mRaw "money order" then some "money_order"
  else if mRaw == "" then none else some mRaw

/-- Per-row body of `normalizeTransactions` (`csv-normalize.js` lines
85-133): coerce each field, then accept only when `client_id` is
non-empty, the date parsed, and the amount is finite; `none` models a
rejected row. -/
def coerceTxRow (r : RawTx) : Option Tx :=
  let cid := r.client_id.getD ""
  let ctry := strUpper (strTrim (r.counterparty_country.getD ""))
  match r.date.bind parseISODate, r.amount.bind jsNumberOfString with
  | some d, some amt =>
    if cid == "" then none
    else
      some { tx_id := r.tx_id
             client_id := cid
             date := d
             amount := amt
             currency := strUpper (jsOrStr r.currency "AUD")
             direction := classifyDirection r.direction
             method := classifyMethod r.method
             counterparty_name := jsOrOpt r.counterparty_name
             counterparty_country := if ctry == "" then none else some ctry
             matter_id := jsOrOpt r.matter_id }
  | _, _ => none

/-- Rejected-row record:
`{ index, reason: 'Missing client_id/date/amount', row }`. -/
structure Reject where
  index : Nat
  reason : String
  row : RawTx
deriving Repr, DecidableEq

/-- The 18-month lookback window. Source field names are `start` and
`end`; `end` is a Lean keyword, so the end of the window is `stop`. -/
structure Lookback where
  start : Int
  stop : Int
deriving Repr, DecidableEq

structure NormTxOut where
  txs : List Tx
  rejects : List Reject
  lookback : Lookback
deriving Repr, DecidableEq

/-- One step of the `latest` reduce of `normalizeTransactions`
(`!acc || isAfter(d, acc)`, strict, ties keep the accumulator). -/
def latestStep (acc : Option Int) (t : Tx) : Option Int :=
  match acc with
  | none => some t.date
  | some a => if t.date > a then some t.date else some a

/-- The `latest` reduce of `normalizeTransactions`: maximum valid
transaction date. -/
def latestTxDate (txs : List Tx) : Option Int := txs.foldl latestStep none

/-- Model of `normalizeTransactions` (`csv-normalize.js`): coerce every
row, split accepted transactions from rejects, and derive the 18-month
lookback window ending at the latest transaction date (or `nowDay`, the
injected clock, when no row was accepted). -/
def normalizeTransactions (rows : List RawTx) (nowDay : Int) : NormTxOut :=
  let txs := rows.filterMap coerceTxRow
  let rejects := rows.enum.filterMap fun p =>
    if (coerceTxRow p.2).isSome then none
    else some { index := p.1, reason := "Missing client_id/date/amount", row := p.2 }
  let e := (latestTxDate txs).getD nowDay
  { txs := txs
    rejects := rejects
    lookback := { start := subMonthsDay e 18, stop := e } }

/-- Fixed corridor country set of `countryRisk.js`. -/
def CORRIDOR_SET : List String := ["RU", "CN", "HK", "AE", "IN", "IR"]

/-- FATF call-for-action (very-high-risk) set of `countryRisk.js`. -/
def VERY_HIGH_RISK : List String := ["IR", "KP", "RU"]

/-- FATF increased-monitoring (grey-list) set of `countryRisk.js`. -/
def INCREASED_MONITORING : List String := ["AE", "TR", "MY", "PH", "BG", "MA"]

def FATF_CALL_AS_AT : String := "2025-10-24"
def FATF_GREY_AS_AT : String := "2025-06-13"

/-- Header-normalized client row: optional CSV string fields, with the
`id`/`customer_id` fallbacks that `scoreAll` probes. -/
structure Client where
  client_id : Option String := none
  id : Option String := none
  customer_id : Option String := none
  full_name : Option String := none
  dob : Option String := none
  residency_country : Option String := none
  delivery_channel : Option String := none
  services : Option String := none
  pep_flag : Option String := none
  sanctions_flag : Option String := none
  kyc_last_reviewed_at : Option String := none
deriving Repr, DecidableEq

/-- The `truthy` helper of `rules.js`: trimmed lowercase string in
`{"true","yes","y","1"}`. -/
def truthy (v : Option String) : Bool :=
  let s := jsLower v
  s == "true" || s == "yes" || s == "y" || s == "1"

/-- Client id resolution of `scoreAll`:
`c.client_id || c.id || c.customer_id || 'unknown'`. -/
def cidOf (c : Client) : String :=
  jsOrStr c.client_id (jsOrStr c.id (jsOrStr c.customer_id "unknown"))

/-- Scoring family (the fixed keys of the per-client `fam` totals). -/
inductive Family
  | profile
  | behavior
  | corridor
deriving DecidableEq, Repr

/-- A `reasons` entry: a scoring reason `{type:'reason', family, points,
text}` (constructor `score`) or a context note `{type:'context', text}`
(constructor `note`). -/
inductive Reason
  | score (family : Family) (points : Nat) (text : String)
  | note (text : String)
deriving DecidableEq, Repr

/-- JS numeric sort `(a,b) => a - b` of the date list. -/
def sortDates (ds : List Int) : List Int := ds.insertionSort (· ≤ ·)

/-- Stable sort of transactions by date, the
`sort((a,b) => a.date.localeCompare(b.date))` of `cases.js` (ISO-string
order coincides with day-number order). -/
def sortByDate (l : List Tx) : List Tx := l.insertionSort fun a b => a.date ≤ b.date

/-- The `hasNInWindow` detector of `rules.js`/`cases.js`: sort the dates,
then scan every contiguous window of exactly `required` dates; a window
triggers when its span in days is at most `windowDays - 1e-9`. -/
def hasNInWindow (txList : List Tx) (required : Nat) (windowDays : Nat) : Bool :=
  if txList.length < required then false
  else
    let dates := sortDates (txList.map (·.date))
    (List.range (dates.length - required + 1)).any fun i =>
      ((dates.getD (i + required - 1) 0 - dates.getD i 0 : Int) : ℚ) ≤
        (windowDays : ℚ) - 1 / 1000000000

/-- Lookback-window membership test of `scoreAll`/`buildCases`
(a skipped row has `d < from || d > to`). -/
def inWindow (lb : Lookback) (t : Tx) : Bool := lb.start ≤ t.date && t.date ≤ lb.stop

/-- The per-client transaction list of `scoreAll`: group the in-window
transactions by `client_id` (insertion order) and look up the client's
id — equivalently, filter. -/
def myTxOf (txs : List Tx) (lb : Lookback) (cid : String) : List Tx :=
  txs.filter fun t => inWindow lb t && t.client_id == cid

/-- KYC staleness in months: `monthsBetween(kyc, lookback.end)` guarded
by JS truthiness of the field (`lookback.end` is a valid ISO slice, so
only the client-side string can fail to parse). -/
def kycMonthsOf (c : Client) (lbStop : Int) : Option Nat :=
  match c.kyc_last_reviewed_at with
  | none => none
  | some s =>
    if s == "" then none
    else (parseISODate s).map fun d => (d - lbStop).natAbs / 30

/-- Services regex `/remittance|property|real ?estate/` on the lowercased
text. -/
def servicesRisky (c : Client) : Bool :=
  let s := strLower (c.services.getD "")
  strIncludes s "remittance" || strIncludes s "property" ||
    strIncludes s "real estate" || strIncludes s "realestate"

/-- Residency country, trimmed and uppercased. -/
def resCtryOf (c : Client) : String := strUpper (strTrim (c.residency_country.getD ""))

/-- Cash-in structuring candidates: direction `in`, method `cash`,
amount in `[9600, 9999]`. -/
def cashInPred (t : Tx) : Bool :=
  t.direction == some "in" && t.method == some "cash" &&
    9600 ≤ t.amount && t.amount ≤ 9999

def cashInOf (my : List Tx) : List Tx := my.filter cashInPred

/-- Large domestic transfer: outbound, `amount ≥ 100000`, counterparty
country absent or `AU`. -/
def largeDomesticPred (t : Tx) : Bool :=
  t.direction == some "out" && t.amount ≥ 100000 &&
    (jsStrFalsy t.counterparty_country || t.counterparty_country == some "AU")

/-- Corridor transactions: outbound with counterparty country in the
fixed corridor set (`includes` of a null country is false). -/
def corridorTxOf (my : List Tx) : List Tx :=
  my.filter fun t =>
    t.direction == some "out" &&
      (match t.counterparty_country with
       | some s => CORRIDOR_SET.contains s
       | none => false)

/-- Corridor rule gate: at least 2 corridor transactions and at least one
of them of amount at least 20000. -/
def corridorTrig (my : List Tx) : Bool :=
  (corridorTxOf my).length ≥ 2 && (corridorTxOf my).any fun t => t.amount ≥ 20000

/-- JS `Set` insertion-order deduplication. -/
def dedupFirstAux (seen : List String) : List String → List String
  | [] => []
  | s :: rest =>
    if seen.contains s then dedupFirstAux seen rest
    else s :: dedupFirstAux (s :: seen) rest

def dedupFirst (l : List String) : List String := dedupFirstAux [] l

/-- The `uniqueCountries` join: distinct corridor destinations in first
occurrence order. -/
def corridorCountries (my : List Tx) : List String :=
  dedupFirst ((corridorTxOf my).filterMap (·.counterparty_country))

def structText : String := "Structuring: ≥4 cash deposits A$9,600–9,999 within 7 days"

def kycText (m : Nat) : String :=
  "KYC last reviewed " ++ toString m ++ " months ago (≥12)"

def corridorText (n : Nat) (countries : String) : String :=
  "High-risk corridor: " ++ toString n ++ " transfers to " ++ countries ++ " (≥1 ≥ A$20k)"

/-- The triggered rules of one client, in `addReason` call order; each
entry carries the family and points that `addReason` pushes and
accumulates. -/
def firedRules (c : Client) (my : List Tx) (lbStop : Int) : List (Family × Nat × String) :=
  (if truthy c.pep_flag then [(Family.profile, 30, "PEP flag present")] else [])
  ++ (if truthy c.sanctions_flag then
        [(Family.profile, 30, "Sanctions flag present (DFAT/Consolidated)")] else [])
  ++ (match kycMonthsOf c lbStop with
      | some m => if m ≥ 12 then [(Family.profile, 10, kycText m)] else []
      | none => [])
  ++ (if servicesRisky c then
        [(Family.profile, 8, "Higher-risk services (remittance/property)")] else [])
  ++ (if resCtryOf c != "" && resCtryOf c != "AU" then
        [(Family.profile, 6, "Non-resident (" ++ resCtryOf c ++ ")")] else [])
  ++ (if hasNInWindow (cashInOf my) 4 7 then [(Family.behavior, 25, structText)] else [])
  ++ (if my.any largeDomesticPred then
        [(Family.behavior, 15, "Large domestic transfer ≥ A$100k")] else [])
  ++ (if corridorTrig my then
        [(Family.corridor, 20,
          corridorText (corridorTxOf my).length (String.intercalate "," (corridorCountries my)))]
      else [])

/-- Non-scoring FATF context notes, appended after the scoring reasons in
country-set iteration order. -/
def contextNotes (my : List Tx) : List Reason :=
  (corridorCountries my).filterMap fun cc =>
    if VERY_HIGH_RISK.contains cc then
      some (Reason.note
        ("Destination " ++ cc ++ " on FATF call-for-action (as-at " ++ FATF_CALL_AS_AT ++ ")"))
    else if INCREASED_MONITORING.contains cc then
      some (Reason.note
        ("Destination " ++ cc ++ " on FATF increased monitoring (as-at " ++ FATF_GREY_AS_AT ++ ")"))
    else none

/-- Per-family total of a fired-rule list (the `fam` accumulator). -/
def famPoints (f : Family) (fired : List (Family × Nat × String)) : Nat :=
  ((fired.filter fun r => r.1 = f).map fun r => r.2.1).sum

/-- Per-family total read off a `reasons` list: sum of the points of the
scoring reasons of that family (context notes count nothing). -/
def reasonsFamTotal (f : Family) (rs : List Reason) : Nat :=
  (rs.map fun r =>
    match r with
    | Reason.score f' p _ => if f' = f then p else 0
    | Reason.note _ => 0).sum

/-- One client's score record. -/
structure ScoreRec where
  client_id : String
  score : Nat
  band : String
  reasons : List Reason
deriving Repr, DecidableEq

/-- The per-client body of `scoreAll` (`rules.js`): evaluate the rules,
cap each family, sum, and band (High ≥ 30, Medium ≥ 15, else Low). -/
def scoreClient (c : Client) (my : List Tx) (lbStop : Int) : ScoreRec :=
  let fired := firedRules c my lbStop
  let total := min (famPoints Family.profile fired) 20 +
      min (famPoints Family.behavior fired) 25 +
      min (famPoints Family.corridor fired) 20
  { client_id := cidOf c
    score := total
    band := if total ≥ 30 then "High" else if total ≥ 15 then "Medium" else "Low"
    reasons := (fired.map fun r => Reason.score r.1 r.2.1 r.2.2) ++ contextNotes my }

/-- Ruleset metadata of `scoreAll` (the fields a claim mentions; the
remaining literal band/cap legend strings are omitted). -/
structure RulesMeta where
  id : String
  lookback_months : Nat
  corridor_countries : List String
deriving Repr, DecidableEq

/-- Model of `scoreAll` (`rules.js`): one score record per client, in
input order, each scored over that client's in-window transactions. The
optional AI narrative is skipped (no API key configured); per the spec it
never alters `score`, `band` or `reasons`. -/
def scoreAll (clients : List Client) (txs : List Tx) (lb : Lookback) :
    List ScoreRec × RulesMeta :=
  (clients.map fun c => scoreClient c (myTxOf txs lb (cidOf c)) lb.stop,
   { id := "dnfbp-2025.11", lookback_months := 18, corridor_countries := CORRIDOR_SET })

/-- Sample transaction reference (`pickTx` of `cases.js`). -/
structure SampleTx where
  tx_id : Option String
  date : Int
  amount : ℚ
  currency : String
  method : Option String
  counterparty_country : Option String
deriving Repr, DecidableEq

def pickTx (t : Tx) : SampleTx :=
  { tx_id := t.tx_id
    date := t.date
    amount := t.amount
    currency := t.currency
    method := t.method
    counterparty_country := t.counterparty_country }

/-- Case record of `cases.js`. Structuring and large-domestic cases carry
no `countries` field; that is modelled by the empty-list default. -/
structure Case where
  type : String
  client_id : String
  rule : String
  countries : List String := []
  samples : List SampleTx
deriving Repr, DecidableEq

/-- The per-client loop body of `buildCases` (`cases.js`): the grouped
in-window transactions of one client, and one case per triggered pattern
with up to five samples. -/
def casesFor (win : List Tx) (cid : String) : List Case :=
  let list := win.filter fun t => t.client_id == cid
  let cashIn := sortByDate (cashInOf list)
  let corridor := corridorTxOf list
  let large := list.filter largeDomesticPred
  (if hasNInWindow cashIn 4 7 then
    [{ type := "structuring"
       client_id := cid
       rule := "≥4 cash deposits A$9,600–9,999 within 7 days"
       samples := (cashIn.take 5).map pickTx }]
   else [])
  ++ (if corridor.length ≥ 2 && corridor.any (fun t => t.amount ≥ 20000) then
    [{ type := "corridor"
       client_id := cid
       rule := "≥2 transfers to RU/CN/HK/AE/IN/IR with ≥1 ≥ A$20k"
       countries := dedupFirst (corridor.filterMap (·.counterparty_country))
       samples := (corridor.take 5).map pickTx }]
   else [])
  ++ (if !large.isEmpty then
    [{ type := "large_domestic"
       client_id := cid
       rule := "Domestic transfer ≥ A$100k"
       samples := (large.take 5).map pickTx }]
   else [])

/-- Model of `buildCases` (`cases.js`): group in-window transactions by
client (first-occurrence order) and emit one case per triggered pattern,
with up to five samples. -/
def buildCases (txs : List Tx) (lb : Lookback) : List Case :=
  let win := txs.filter (inWindow lb)
  (dedupFirst (win.map (·.client_id))).flatMap (casesFor win)

/-- Client-sheet synonym table of `csv-normalize.js` (`CLIENT_MAP`), in
source key order. -/
def CLIENT_MAP : List (String × List String) :=
  [("client_id", ["client_id", "clientid", "customer_id", "customerid", "id"]),
   ("full_name", ["full_name", "name", "client_name", "fullname"]),
   ("dob", ["dob", "date_of_birth", "birthdate"]),
   ("residency_country",
    ["residency_country", "country", "country_of_residence", "residence_country"]),
   ("delivery_channel", ["delivery_channel", "channel", "onboarding_channel"]),
   ("services", ["services", "service", "products"]),
   ("pep_flag", ["pep", "pep_flag", "is_pep"]),
   ("sanctions_flag", ["sanctions", "sanctions_flag", "is_sanctioned"]),
   ("kyc_last_reviewed_at",
    ["kyc_last_reviewed_at", "kyc_date", "kyc_last_reviewed", "last_kyc"])]

/-- Transaction-sheet synonym table of `csv-normalize.js` (`TX_MAP`). -/
def TX_MAP : List (String × List String) :=
  [("tx_id", ["tx_id", "transaction_id", "id"]),
   ("client_id", ["client_id", "clientid", "customer_id", "customerid"]),
   ("date", ["date", "tx_date", "timestamp", "posted_at"]),
   ("amount", ["amount", "amt", "value"]),
   ("currency", ["currency", "ccy"]),
   ("direction", ["direction", "dr_cr", "in_out", "flow"]),
   ("method", ["method", "instrument", "channel"]),
   ("counterparty_name", ["counterparty_name", "payer_name", "payee_name", "beneficiary"]),
   ("counterparty_country",
    ["counterparty_country", "cp_country", "country_to", "country_from",
     "destination_country", "origin_country"]),
   ("matter_id", ["matter_id", "file_id", "case_id", "engagement_id"])]

/-- Column-name resolution of `mapHeaders`: lower-case and trim, first
canonical key (in table order) whose synonym list contains it wins, else
the lowered name itself passes through. -/
def resolveHeader (dict : List (String × List String)) (k : String) : String :=
  let lk := jsLower (some k)
  match dict.find? fun can => can.2.contains lk with
  | some can => can.1
  | none => lk

/-- JS object property write `o[k] = v`: if the key exists its value is
updated in place (the key keeps its original position), else the pair is
appended. -/
def objInsert (o : List (String × String)) (k v : String) : List (String × String) :=
  if o.any fun p => p.1 == k then o.map fun p => if p.1 == k then (p.1, v) else p
  else o ++ [(k, v)]

/-- Model of `mapHeaders` (`csv-normalize.js`): rebuild the row object,
writing each value under its resolved column name. -/
def mapHeaders (row : List (String × String)) (dict : List (String × List String)) :
    List (String × String) :=
  row.foldl (fun out p => objInsert out (resolveHeader dict p.1) p.2) []

/-- The recorded audit mapping `original_header → canonical_name`, built
from the first row's keys (`normalizeClients`/`normalizeTransactions`). -/
def recordHeaderMap (rows : List (List (String × String)))
    (dict : List (String × List String)) : List (String × String) :=
  match rows with
  | [] => []
  | r :: _ => r.map fun p => (p.1, resolveHeader dict p.1)

/-! SHA-256 (model of node `crypto.createHash('sha256')`), operating on
byte lists with `Nat` words reduced mod `2^32`. -/

def w32 : Nat := 4294967296

def rotr32 (n x : Nat) : Nat := ((x >>> n) ||| (x <<< (32 - n))) % w32

def shaK : List Nat :=
  [1116352408, 1899447441, 3049323471, 3921009573, 961987163, 1508970993,
   2453635748, 2870763221, 3624381080, 310598401, 607225278, 1426881987,
   1925078388, 2162078206, 2614888103, 3248222580, 3835390401, 4022224774,
   264347078, 604807628, 770255983, 1249150122, 1555081692, 1996064986,
   2554220882, 2821834349, 2952996808, 3210313671, 3336571891, 3584528711,
   113926993, 338241895, 666307205, 773529912, 1294757372, 1396182291,
   1695183700, 1986661051, 2177026350, 2456956037, 2730485921, 2820302411,
   3259730800, 3345764771, 3516065817, 3600352804, 4094571909, 275423344,
   430227734, 506948616, 659060556, 883997877, 958139571, 1322822218,
   1537002063, 1747873779, 1955562222, 2024104815, 2227730452, 2361852424,
   2428436474, 2756734187, 3204031479, 3329325298]

structure Hash8 where
  a : Nat
  b : Nat
  c : Nat
  d : Nat
  e : Nat
  f : Nat
  g : Nat
  h : Nat
deriving Repr, DecidableEq

def sha256Init : Hash8 :=
  { a := 1779033703, b := 3144134277, c := 1013904242, d := 2773480762,
    e := 1359893119, f := 2600822924, g := 528734635, h := 1541459225 }

/-- Big-endian byte encoding of `n` in `len` bytes. -/
def toBytesBE (n : Nat) (len : Nat) : List Nat :=
  (List.range len).reverse.map fun i => (n >>> (8 * i)) % 256

/-- SHA-256 message padding. -/
def sha256Pad (msg : List Nat) : List Nat :=
  let L := msg.length
  let k := (56 - (L + 1) % 64 + 64) % 64
  msg ++ [128] ++ List.replicate k 0 ++ toBytesBE (8 * L) 8

def chunksAux : Nat → List Nat → List (List Nat)
  | 0, _ => []
  | _, [] => []
  | fuel + 1, l => l.take 64 :: chunksAux fuel (l.drop 64)

/-- Split a padded message into 64-byte blocks. -/
def chunks64 (l : List Nat) : List (List Nat) := chunksAux l.length l

def bytesToWords : List Nat → List Nat
  | a :: b :: c :: d :: rest => (((a * 256 + b) * 256 + c) * 256 + d) :: bytesToWords rest
  | _ => []

def smallSig0 (x : Nat) : Nat := rotr32 7 x ^^^ rotr32 18 x ^^^ (x >>> 3)
def smallSig1 (x : Nat) : Nat := rotr32 17 x ^^^ rotr32 19 x ^^^ (x >>> 10)
def bigSig0 (x : Nat) : Nat := rotr32 2 x ^^^ rotr32 13 x ^^^ rotr32 22 x
def bigSig1 (x : Nat) : Nat := rotr32 6 x ^^^ rotr32 11 x ^^^ rotr32 25 x

/-- Extend the 16 block words to the 64-entry message schedule. -/
def extendSchedule (ws : List Nat) : List Nat :=
  (List.range 48).foldl
    (fun acc _i =>
      let n := acc.length
      acc ++ [(smallSig1 (acc.getD (n - 2) 0) + acc.getD (n - 7) 0 +
               smallSig0 (acc.getD (n - 15) 0) + acc.getD (n - 16) 0) % w32])
    ws

def shaRound (st : Hash8) (k w : Nat) : Hash8 :=
  let ch := (st.e &&& st.f) ^^^ ((st.e ^^^ (w32 - 1)) &&& st.g)
  let t1 := (st.h + bigSig1 st.e + ch + k + w) % w32
  let maj := (st.a &&& st.b) ^^^ (st.a &&& st.c) ^^^ (st.b &&& st.c)
  let t2 := (bigSig0 st.a + maj) % w32
  { a := (t1 + t2) % w32, b := st.a, c := st.b, d := st.c,
    e := (st.d + t1) % w32, f := st.e, g := st.f, h := st.g }

def compressChunk (hs : Hash8) (chunk : List Nat) : Hash8 :=
  let ws := extendSchedule (bytesToWords chunk)
  let st := (shaK.zip ws).foldl (fun s kw => shaRound s kw.1 kw.2) hs
  { a := (hs.a + st.a) % w32, b := (hs.b + st.b) % w32, c := (hs.c + st.c) % w32,
    d := (hs.d + st.d) % w32, e := (hs.e + st.e) % w32, f := (hs.f + st.f) % w32,
    g := (hs.g + st.g) % w32, h := (hs.h + st.h) % w32 }

def hexDigit (n : Nat) : Char := if n < 10 then Char.ofNat (48 + n) else Char.ofNat (87 + n)

def wordToHex (x : Nat) : List Char :=
  (List.range 8).reverse.map fun i => hexDigit ((x >>> (4 * i)) % 16)

/-- The `sha256Hex` helper of `manifest.js`: hex-encoded SHA-256 digest
of a byte buffer. -/
def sha256Hex (msg : List Nat) : String :=
  let hs := (chunks64 (sha256Pad msg)).foldl compressChunk sha256Init
  String.mk (([hs.a, hs.b, hs.c, hs.d, hs.e, hs.f, hs.g, hs.h].map wordToHex).flatten)

/-- One `files[]` entry of the manifest. -/
structure ManifestFile where
  name : String
  bytes : Nat
  sha256 : String
deriving Repr, DecidableEq

/-- The optional detached-signature block. -/
structure Signing where
  alg : String
  key_id : String
  signature : String
deriving Repr, DecidableEq

/-- The manifest document (`manifest.js`); `sources` carries no claim
content and is omitted. -/
structure Manifest where
  schema : String
  created_utc : String
  app_version : String
  ruleset_id : String
  hash_algo : String
  files : List ManifestFile
  signing : Option Signing
deriving Repr, DecidableEq

/-- JSON string escaping as `JSON.stringify` performs it on the
manifest's plain-ASCII fields. -/
def jsonEscapeChar (c : Char) : List Char :=
  if c == '"' then ['\\', '"']
  else if c == '\\' then ['\\', '\\']
  else if c == '\n' then ['\\', 'n']
  else if c == '\r' then ['\\', 'r']
  else if c == '\t' then ['\\', 't']
  else if c.toNat < 32 then
    ['\\', 'u', '0', '0', hexDigit (c.toNat / 16), hexDigit (c.toNat % 16)]
  else [c]

def jsonStr (s : String) : String :=
  "\"" ++ String.mk (s.toList.flatMap jsonEscapeChar) ++ "\""

def jsonFile (f : ManifestFile) : String :=
  "\x7b\"name\":" ++ jsonStr f.name ++ ",\"bytes\":" ++ toString f.bytes ++
    ",\"sha256\":" ++ jsonStr f.sha256 ++ "\x7d"

/-- The canonical serialization the signature covers:
`JSON.stringify({ files, created_utc, ruleset_id })`. -/
def signingPayload (files : List ManifestFile) (created ruleset : String) : String :=
  "\x7b\"files\":[" ++ String.intercalate "," (files.map jsonFile) ++
    "],\"created_utc\":" ++ jsonStr created ++ ",\"ruleset_id\":" ++ jsonStr ruleset ++ "\x7d"

def signingPayloadBytes (files : List ManifestFile) (created ruleset : String) : List Nat :=
  (signingPayload files created ruleset).toUTF8.toList.map (·.toNat)

def b64Char (n : Nat) : Char :=
  if n < 26 then Char.ofNat (65 + n)
  else if n < 52 then Char.ofNat (97 + (n - 26))
  else if n < 62 then Char.ofNat (48 + (n - 52))
  else if n == 62 then '+'
  else '/'

/-- Standard base64 with padding (`Buffer.prototype.toString('base64')`). -/
def base64Encode : List Nat → List Char
  | [] => []
  | [a] => [b64Char (a >>> 2), b64Char ((a % 4) <<< 4), '=', '=']
  | [a, b] => [b64Char (a >>> 2), b64Char (((a % 4) <<< 4) ||| (b >>> 4)),
               b64Char ((b % 16) <<< 2), '=']
  | a :: b :: c :: rest =>
    b64Char (a >>> 2) :: b64Char (((a % 4) <<< 4) ||| (b >>> 4)) ::
      b64Char (((b % 16) <<< 2) ||| (c >>> 6)) :: b64Char (c % 64) :: base64Encode rest

def base64 (bs : List Nat) : String := String.mk (base64Encode bs)

/-- Model of `buildManifest` (`manifest.js`). `signKey` is
`cfg.SIGN_PRIVATE_KEY` (the empty string means unconfigured, as in JS
truthiness); `signer` models `nacl.sign.detached` applied to the decoded
key, with `none` standing for a thrown signing error, which the
`try/catch` swallows; `now` is the injected `new Date().toISOString()`. -/
def buildManifest (namedFiles : List (String × List Nat)) (rm : Option RulesMeta)
    (signKey : String) (signer : String → List Nat → Option (List Nat))
    (now : String) : Manifest :=
  let files : List ManifestFile :=
    namedFiles.map fun nb => { name := nb.1, bytes := nb.2.length, sha256 := sha256Hex nb.2 }
  let rid := jsOrStr (rm.map (·.id)) "dnfbp-starter"
  let m : Manifest :=
    { schema := "trancheready.manifest.v1", created_utc := now, app_version := "1.0.0",
      ruleset_id := rid, hash_algo := "sha256", files := files, signing := none }
  if signKey == "" then m
  else
    match signer signKey (signingPayloadBytes files now rid) with
    | some sig =>
      { m with signing := some { alg := "ed25519", key_id := "trancheready", signature := base64 sig } }
    | none => m

/-! General lemmas about the embedding. -/

theorem mem_if_singleton {α : Type} {p : Prop} [Decidable p] {a x : α} :
    a ∈ (if p then [x] else []) ↔ p ∧ a = x := by
  split <;> simp_all

theorem reasonsFamTotal_append (f : Family) (rs ss : List Reason) :
    reasonsFamTotal f (rs ++ ss) = reasonsFamTotal f rs + reasonsFamTotal f ss := by
  simp [reasonsFamTotal]

theorem reasonsFamTotal_cons (f : Family) (r : Reason) (rs : List Reason) :
    reasonsFamTotal f (r :: rs) =
      (match r with
       | Reason.score f' p _ => if f' = f then p else 0
       | Reason.note _ => 0) + reasonsFamTotal f rs := by
  simp [reasonsFamTotal]

theorem reasonsFamTotal_eq_zero_of_notes (f : Family) (rs : List Reason)
    (h : ∀ r ∈ rs, ∃ t, r = Reason.note t) : reasonsFamTotal f rs = 0 := by
  induction rs with
  | nil => rfl
  | cons a l ih =>
    obtain ⟨t, rfl⟩ := h a (by simp)
    simpa [reasonsFamTotal_cons] using ih fun r hr => h r (by simp [hr])

theorem contextNotes_are_notes (my : List Tx) :
    ∀ r ∈ contextNotes my, ∃ t, r = Reason.note t := by
  intro r hr
  simp only [contextNotes, List.mem_filterMap] at hr
  obtain ⟨cc, _hmem, hcc⟩ := hr
  split at hcc
  · exact ⟨_, (Option.some_inj.mp hcc).symm⟩
  · split at hcc
    · exact ⟨_, (Option.some_inj.mp hcc).symm⟩
    · simp at hcc

theorem reasonsFamTotal_contextNotes (f : Family) (my : List Tx) :
    reasonsFamTotal f (contextNotes my) = 0 :=
  reasonsFamTotal_eq_zero_of_notes f _ (contextNotes_are_notes my)

theorem reasonsFamTotal_map_fired (f : Family) (fired : List (Family × Nat × String)) :
    reasonsFamTotal f (fired.map fun r => Reason.score r.1 r.2.1 r.2.2) = famPoints f fired := by
  induction fired with
  | nil => rfl
  | cons a l ih =>
    by_cases h : a.1 = f <;>
      simp [reasonsFamTotal_cons, famPoints, List.filter_cons, h] at ih ⊢ <;> omega

/-- The per-family totals read from a score record's `reasons` are the
`fam` accumulator totals of the fired rules. -/
theorem reasonsFamTotal_scoreClient (f : Family) (c : Client) (my : List Tx) (lbStop : Int) :
    reasonsFamTotal f (scoreClient c my lbStop).reasons = famPoints f (firedRules c my lbStop) := by
  simp [scoreClient, reasonsFamTotal_append, reasonsFamTotal_contextNotes,
    reasonsFamTotal_map_fired]

theorem famPoints_append (f : Family) (l1 l2 : List (Family × Nat × String)) :
    famPoints f (l1 ++ l2) = famPoints f l1 + famPoints f l2 := by
  simp [famPoints]

theorem famPoints_if_singleton (f : Family) (p : Prop) [Decidable p] (g : Family) (n : Nat)
    (t : String) :
    famPoints f (if p then [(g, n, t)] else []) = if p ∧ g = f then n else 0 := by
  by_cases hp : p
  · by_cases hg : g = f <;> simp [hp, hg, famPoints, List.filter_cons]
  · simp [hp, famPoints]

/-- Claim C1: for every client the returned score equals
`min(profile_total, 20) + min(behavior_total, 25) + min(corridor_total, 20)`
where each family total is the sum of the points of that family's
triggered rules (read off the record's `reasons`); consequently the score
never exceeds 65; and the band is `High` iff the score is at least 30,
`Medium` iff it lies in `[15, 30)`, and `Low` otherwise, so the boundary
scores 30 and 15 fall in the higher band. -/
theorem claim_C1 (clients : List Client) (txs : List Tx) (lb : Lookback)
    (sc : ScoreRec) (hsc : sc ∈ (scoreAll clients txs lb).1) :
    sc.score =
      min (reasonsFamTotal Family.profile sc.reasons) 20 +
      min (reasonsFamTotal Family.behavior sc.reasons) 25 +
      min (reasonsFamTotal Family.corridor sc.reasons) 20 ∧
    sc.score ≤ 65 ∧
    (sc.band = "High" ↔ 30 ≤ sc.score) ∧
    (sc.band = "Medium" ↔ 15 ≤ sc.score ∧ sc.score < 30) ∧
    (sc.band = "Low" ↔ sc.score < 15) := by
  simp only [scoreAll] at hsc
  obtain ⟨c, _hc, rfl⟩ := List.mem_map.mp hsc
  set my := myTxOf txs lb (cidOf c) with hmy
  have hscore : (scoreClient c my lb.stop).score =
      min (famPoints Family.profile (firedRules c my lb.stop)) 20 +
      min (famPoints Family.behavior (firedRules c my lb.stop)) 25 +
      min (famPoints Family.corridor (firedRules c my lb.stop)) 20 := by
    simp only [scoreClient]
  have hband : (scoreClient c my lb.stop).band =
      if 30 ≤ (scoreClient c my lb.stop).score then "High"
      else if 15 ≤ (scoreClient c my lb.stop).score then "Medium" else "Low" := by
    simp only [scoreClient]
  refine ⟨?_, ?_, ?_, ?_, ?_⟩
  · rw [reasonsFamTotal_scoreClient, reasonsFamTotal_scoreClient,
      reasonsFamTotal_scoreClient]
    exact hscore
  · rw [hscore]
    have ha := Nat.min_le_right (famPoints Family.profile (firedRules c my lb.stop)) 20
    have hb := Nat.min_le_right (famPoints Family.behavior (firedRules c my lb.stop)) 25
    have hd := Nat.min_le_right (famPoints Family.corridor (firedRules c my lb.stop)) 20
    omega
  · rw [hband]
    split_ifs with h30 h15
    · exact iff_of_true rfl h30
    · exact iff_of_false (by decide) h30
    · exact iff_of_false (by decide) h30
  · rw [hband]
    split_ifs with h30 h15
    · exact iff_of_false (by decide) fun h => absurd h30 (by omega)
    · exact iff_of_true rfl ⟨h15, by omega⟩
    · exact iff_of_false (by decide) fun h => h15 h.1
  · rw [hband]
    split_ifs with h30 h15
    · exact iff_of_false (by decide) (by omega)
    · exact iff_of_false (by decide) (by omega)
    · exact iff_of_true rfl (by omega)

def wClient : Client := { client_id := some "w", pep_flag := some "yes" }
def wLb : Lookback := { start := 0, stop := 0 }
def wScoreRec : ScoreRec := scoreClient wClient (myTxOf [] wLb (cidOf wClient)) wLb.stop

/-- Witness for C1: the cap/band law instantiated at a concrete
one-client batch. -/
theorem claim_C1_witness :
    wScoreRec.score =
      min (reasonsFamTotal Family.profile wScoreRec.reasons) 20 +
      min (reasonsFamTotal Family.behavior wScoreRec.reasons) 25 +
      min (reasonsFamTotal Family.corridor wScoreRec.reasons) 20 ∧
    wScoreRec.score ≤ 65 ∧
    (wScoreRec.band = "High" ↔ 30 ≤ wScoreRec.score) ∧
    (wScoreRec.band = "Medium" ↔ 15 ≤ wScoreRec.score ∧ wScoreRec.score < 30) ∧
    (wScoreRec.band = "Low" ↔ wScoreRec.score < 15) :=
  claim_C1 [wClient] [] wLb wScoreRec (by simp [scoreAll, wScoreRec])

theorem famPoints_nil (f : Family) : famPoints f [] = 0 := rfl

theorem famPoints_firedRules_nil (c : Client) (lbStop : Int) (f : Family)
    (hf : Family.profile ≠ f) : famPoints f (firedRules c [] lbStop) = 0 := by
  rcases hky : kycMonthsOf c lbStop with _ | m <;>
    simp [firedRules, hky, famPoints_append, famPoints_if_singleton, famPoints_nil,
      cashInOf, hasNInWindow, corridorTrig, corridorTxOf, hf]

/-- Claim C10: the scorer returns exactly one record per input client, in
input order (entry `i` is the evaluation of client `i` over its in-window
transactions); a client with no in-window transactions has behavior and
corridor totals 0 and is scored from the capped profile total alone. -/
theorem claim_C10 (clients : List Client) (txs : List Tx) (lb : Lookback) :
    (scoreAll clients txs lb).1.length = clients.length ∧
    (∀ i : Nat, (scoreAll clients txs lb).1[i]? =
      (clients[i]?).map fun c => scoreClient c (myTxOf txs lb (cidOf c)) lb.stop) ∧
    (∀ (c : Client) (lbStop : Int),
      myTxOf txs lb (cidOf c) = [] →
        reasonsFamTotal Family.behavior (scoreClient c (myTxOf txs lb (cidOf c)) lbStop).reasons
            = 0 ∧
        reasonsFamTotal Family.corridor (scoreClient c (myTxOf txs lb (cidOf c)) lbStop).reasons
            = 0 ∧
        (scoreClient c (myTxOf txs lb (cidOf c)) lbStop).score =
          min (reasonsFamTotal Family.profile
                (scoreClient c (myTxOf txs lb (cidOf c)) lbStop).reasons) 20) := by
  refine ⟨by simp [scoreAll], fun i => by simp [scoreAll], fun c lbStop hnil => ?_⟩
  rw [hnil]
  have hb := famPoints_firedRules_nil c lbStop Family.behavior (by simp)
  have hc := famPoints_firedRules_nil c lbStop Family.corridor (by simp)
  have hscore : (scoreClient c [] lbStop).score =
      min (famPoints Family.profile (firedRules c [] lbStop)) 20 +
      min (famPoints Family.behavior (firedRules c [] lbStop)) 25 +
      min (famPoints Family.corridor (firedRules c [] lbStop)) 20 := by
    simp only [scoreClient]
  refine ⟨?_, ?_, ?_⟩
  · rw [reasonsFamTotal_scoreClient, hb]
  · rw [reasonsFamTotal_scoreClient, hc]
  · rw [reasonsFamTotal_scoreClient, hscore, hb, hc]
    simp

/-- Witness for C10 at a concrete one-client, no-transaction batch. -/
theorem claim_C10_witness :
    (scoreAll [wClient] [] wLb).1.length = 1 ∧
    reasonsFamTotal Family.behavior (scoreClient wClient (myTxOf [] wLb (cidOf wClient)) 0).reasons
        = 0 ∧
    (scoreClient wClient (myTxOf [] wLb (cidOf wClient)) 0).score =
      min (reasonsFamTotal Family.profile
            (scoreClient wClient (myTxOf [] wLb (cidOf wClient)) 0).reasons) 20 :=
  ⟨(claim_C10 [wClient] [] wLb).1,
   ((claim_C10 [wClient] [] wLb).2.2 wClient 0 (by decide)).1,
   ((claim_C10 [wClient] [] wLb).2.2 wClient 0 (by decide)).2.2⟩

/-- The specification-side sliding-window condition: some contiguous
window of exactly `required` entries of the date-sorted sequence spans at
most `windowDays - 1e-9` days. -/
def slidingSpanOK (dates : List Int) (required windowDays : Nat) : Prop :=
  ∃ i, i + required ≤ dates.length ∧
    ((dates.getD (i + required - 1) 0 - dates.getD i 0 : Int) : ℚ) ≤
      (windowDays : ℚ) - 1 / 1000000000

theorem hasNInWindow_iff (txList : List Tx) (required windowDays : Nat) :
    hasNInWindow txList required windowDays = true ↔
      slidingSpanOK (sortDates (txList.map (·.date))) required windowDays := by
  have hlen : (sortDates (txList.map (·.date))).length = txList.length := by
    simp [sortDates, List.length_insertionSort]
  unfold hasNInWindow slidingSpanOK
  by_cases h : txList.length < required
  · simp only [if_pos h]
    constructor
    · intro hfalse; cases hfalse
    · rintro ⟨i, hi, _⟩
      rw [hlen] at hi
      omega
  · simp only [if_neg h, List.any_eq_true, List.mem_range, decide_eq_true_eq]
    constructor
    · rintro ⟨i, hi, hc⟩
      exact ⟨i, by rw [hlen] at hi ⊢; omega, hc⟩
    · rintro ⟨i, hi, hc⟩
      exact ⟨i, by rw [hlen] at hi ⊢; omega, hc⟩

theorem hasNInWindow_length {l : List Tx} {required windowDays : Nat}
    (h : hasNInWindow l required windowDays = true) : required ≤ l.length := by
  unfold hasNInWindow at h
  by_cases hl : l.length < required
  · rw [if_pos hl] at h; cases h
  · omega

theorem sortDates_perm_eq {l1 l2 : List Int} (h : l1.Perm l2) : sortDates l1 = sortDates l2 :=
  List.eq_of_perm_of_sorted
    ((List.perm_insertionSort (fun a b : Int => a ≤ b) l1).trans
      (h.trans (List.perm_insertionSort (fun a b : Int => a ≤ b) l2).symm))
    (List.sorted_insertionSort (fun a b : Int => a ≤ b) l1)
    (List.sorted_insertionSort (fun a b : Int => a ≤ b) l2)

theorem hasNInWindow_sortByDate (l : List Tx) (required windowDays : Nat) :
    hasNInWindow (sortByDate l) required windowDays = hasNInWindow l required windowDays := by
  unfold hasNInWindow
  have hlen : (sortByDate l).length = l.length := List.length_insertionSort _ l
  have hperm : ((sortByDate l).map (·.date)).Perm (l.map (·.date)) :=
    (List.perm_insertionSort _ l).map _
  rw [hlen, sortDates_perm_eq hperm]

def structReason : Reason := Reason.score Family.behavior 25 structText

theorem structElem_mem_firedRules_iff (c : Client) (my : List Tx) (lbStop : Int) :
    (Family.behavior, 25, structText) ∈ firedRules c my lbStop ↔
      hasNInWindow (cashInOf my) 4 7 = true := by
  rcases hky : kycMonthsOf c lbStop with _ | m <;>
    simp [firedRules, hky, mem_if_singleton, Prod.mk.injEq, structText]

theorem structReason_mem_iff (c : Client) (my : List Tx) (lbStop : Int) :
    structReason ∈ (scoreClient c my lbStop).reasons ↔
      hasNInWindow (cashInOf my) 4 7 = true := by
  have hnotes : structReason ∉ contextNotes my := by
    intro h
    obtain ⟨t, ht⟩ := contextNotes_are_notes my _ h
    simp [structReason] at ht
  simp only [scoreClient, List.mem_append, List.mem_map]
  constructor
  · rintro (⟨⟨f, p, t⟩, hr, hre⟩ | h)
    · injection hre with h1 h2 h3
      subst h1; subst h2; subst h3
      exact (structElem_mem_firedRules_iff c my lbStop).mp hr
    · exact absurd h hnotes
  · intro h
    exact Or.inl ⟨(Family.behavior, 25, structText),
      (structElem_mem_firedRules_iff c my lbStop).mpr h, rfl⟩

theorem case_list_eq_myTxOf (txs : List Tx) (lb : Lookback) (cid : String) :
    (txs.filter (inWindow lb)).filter (fun t => t.client_id == cid) = myTxOf txs lb cid := by
  rw [List.filter_filter]
  unfold myTxOf
  exact List.filter_congr fun t _ => Bool.and_comm _ _

theorem mem_dedupFirstAux (a : String) (l : List String) :
    ∀ seen, a ∈ l → a ∉ seen → a ∈ dedupFirstAux seen l := by
  induction l with
  | nil => intro seen h _; cases h
  | cons s rest ih =>
    intro seen h hs
    by_cases hcon : seen.contains s
    · rw [dedupFirstAux, if_pos hcon]
      rcases List.mem_cons.mp h with rfl | h'
      · exact absurd (by simpa using hcon) hs
      · exact ih seen h' hs
    · rw [dedupFirstAux, if_neg hcon]
      by_cases has : a = s
      · subst has; exact List.mem_cons_self a _
      · rcases List.mem_cons.mp h with rfl | h'
        · exact absurd rfl has
        · exact List.mem_cons_of_mem _ (ih (s :: seen) h' (by simp [has, hs]))

theorem mem_dedupFirst {a : String} {l : List String} (h : a ∈ l) : a ∈ dedupFirst l :=
  mem_dedupFirstAux a l [] h (by simp)

theorem casesFor_client_id (win : List Tx) (cid : String) (k : Case)
    (hk : k ∈ casesFor win cid) : k.client_id = cid := by
  simp only [casesFor, List.mem_append, mem_if_singleton] at hk
  rcases hk with (⟨_, hk⟩ | ⟨_, hk⟩) | ⟨_, hk⟩ <;> subst hk <;> rfl

theorem casesFor_structuring (win : List Tx) (cid : String) :
    ((casesFor win cid).any fun k => k.type == "structuring") = true ↔
      hasNInWindow (sortByDate (cashInOf (win.filter fun t => t.client_id == cid))) 4 7
        = true := by
  unfold casesFor
  by_cases h1 : hasNInWindow
      (sortByDate (cashInOf (win.filter fun t => t.client_id == cid))) 4 7 = true <;>
    by_cases h2 : ((corridorTxOf (win.filter fun t => t.client_id == cid)).length ≥ 2 &&
      (corridorTxOf (win.filter fun t => t.client_id == cid)).any
        fun t => t.amount ≥ 20000) = true <;>
    by_cases h3 : (!((win.filter fun t => t.client_id == cid).filter
        largeDomesticPred).isEmpty) = true <;>
    simp [h1, h2, h3] <;>
    (intro x; intros; subst_vars; simp_all)

theorem structCase_buildCases_iff (txs : List Tx) (lb : Lookback) (cid : String) :
    ((buildCases txs lb).any fun k => k.type == "structuring" && k.client_id == cid) = true ↔
      hasNInWindow (cashInOf (myTxOf txs lb cid)) 4 7 = true := by
  constructor
  · intro h
    obtain ⟨k, hk, hp⟩ := List.any_eq_true.mp h
    simp only [Bool.and_eq_true, beq_iff_eq] at hp
    obtain ⟨cid2, _hded, hkmem⟩ := List.mem_flatMap.mp hk
    have hcid : cid2 = cid := (casesFor_client_id _ _ _ hkmem ▸ hp.2)
    subst hcid
    have hany : ((casesFor (txs.filter (inWindow lb)) cid2).any
        fun k => k.type == "structuring") = true :=
      List.any_eq_true.mpr ⟨k, hkmem, by simp [hp.1]⟩
    have := (casesFor_structuring _ _).mp hany
    rwa [hasNInWindow_sortByDate, case_list_eq_myTxOf] at this
  · intro h
    have hlen : 4 ≤ (cashInOf (myTxOf txs lb cid)).length := hasNInWindow_length h
    have hne : cashInOf (myTxOf txs lb cid) ≠ [] := by
      intro he
      rw [he] at hlen
      simp at hlen
    obtain ⟨t, ht⟩ := List.exists_mem_of_ne_nil _ hne
    have htm : t ∈ myTxOf txs lb cid := List.mem_of_mem_filter ht
    have hsplit := List.mem_filter.mp htm
    rw [Bool.and_eq_true, beq_iff_eq] at hsplit
    have htw : t ∈ txs.filter (inWindow lb) := List.mem_filter.mpr ⟨hsplit.1, hsplit.2.1⟩
    have hded : cid ∈ dedupFirst ((txs.filter (inWindow lb)).map (·.client_id)) :=
      mem_dedupFirst (List.mem_map.mpr ⟨t, htw, hsplit.2.2⟩)
    have hany : ((casesFor (txs.filter (inWindow lb)) cid).any
        fun k => k.type == "structuring") = true := by
      apply (casesFor_structuring _ _).mpr
      rw [hasNInWindow_sortByDate, case_list_eq_myTxOf]
      exact h
    obtain ⟨k, hkmem, hktype⟩ := List.any_eq_true.mp hany
    apply List.any_eq_true.mpr
    refine ⟨k, ?_, ?_⟩
    · exact List.mem_flatMap.mpr ⟨cid, hded, hkmem⟩
    · have := casesFor_client_id _ _ _ hkmem
      simp only [Bool.and_eq_true, beq_iff_eq]
      exact ⟨by simpa using hktype, this⟩

/-- Concrete structuring example data: cash-in transactions of amount
9700 on the given day numbers. -/
def structTx (d : Int) : Tx :=
  { client_id := "c1", date := d, amount := 9700, direction := some "in",
    method := some "cash" }

def structLb : Lookback := { start := 0, stop := 100 }
def structClient : Client := { client_id := some "c1" }

unseal Rat.sub Rat.mul Rat.inv Rat.add in
/-- Claim C2: for every client, the structuring rule (+25 behavior
points) and the `structuring` case trigger exactly when, among that
client's in-window cash-method inbound transactions of amount in
`[9600, 9999]`, some contiguous window of exactly 4 of the date-sorted
dates spans at most `7 - 1e-9` days — the detector scans every contiguous
window, not just the first 4; on days 0,1,2,6,10 at amount 9700 it
triggers, and with the fourth transaction shifted to day 8 it does not. -/
theorem claim_C2 (c : Client) (txs : List Tx) (lb : Lookback) :
    (structReason ∈ (scoreClient c (myTxOf txs lb (cidOf c)) lb.stop).reasons ↔
      slidingSpanOK (sortDates ((cashInOf (myTxOf txs lb (cidOf c))).map (·.date))) 4 7) ∧
    (((buildCases txs lb).any
        fun k => k.type == "structuring" && k.client_id == cidOf c) = true ↔
      slidingSpanOK (sortDates ((cashInOf (myTxOf txs lb (cidOf c))).map (·.date))) 4 7) ∧
    (structReason ∈
        (scoreClient structClient
          (myTxOf ([0, 1, 2, 6, 10].map structTx) structLb (cidOf structClient))
          structLb.stop).reasons ∧
      ((buildCases ([0, 1, 2, 6, 10].map structTx) structLb).any
        fun k => k.type == "structuring" && k.client_id == cidOf structClient) = true) ∧
    (structReason ∉
        (scoreClient structClient
          (myTxOf ([0, 1, 2, 8, 10].map structTx) structLb (cidOf structClient))
          structLb.stop).reasons ∧
      ((buildCases ([0, 1, 2, 8, 10].map structTx) structLb).any
        fun k => k.type == "structuring" && k.client_id == cidOf structClient) = false) := by
  refine ⟨?_, ?_, ?_, ?_⟩
  · exact (structReason_mem_iff c (myTxOf txs lb (cidOf c)) lb.stop).trans
      (hasNInWindow_iff _ 4 7)
  · exact (structCase_buildCases_iff txs lb (cidOf c)).trans (hasNInWindow_iff _ 4 7)
  · exact ⟨by decide, by decide⟩
  · refine ⟨by decide, ?_⟩
    have h : ((buildCases ([0, 1, 2, 8, 10].map structTx) structLb).any
        fun k => k.type == "structuring" && k.client_id == cidOf structClient) ≠ true := by
      decide
    exact Bool.not_eq_true _ ▸ Bool.of_not_eq_true h

theorem famPoints_corridor_firedRules (c : Client) (my : List Tx) (lbStop : Int) :
    famPoints Family.corridor (firedRules c my lbStop) =
      if corridorTrig my = true then 20 else 0 := by
  rcases hky : kycMonthsOf c lbStop with _ | m <;>
    simp [firedRules, hky, famPoints_append, famPoints_if_singleton, famPoints_nil]

theorem corridorTrig_iff (my : List Tx) :
    corridorTrig my = true ↔
      2 ≤ (corridorTxOf my).length ∧ ∃ t ∈ corridorTxOf my, 20000 ≤ t.amount := by
  simp [corridorTrig, List.any_eq_true]

/-- The corridor family total of a score record is 20 exactly when the
corridor gate fired (it is the only corridor-family rule). -/
theorem corridor_total_iff (c : Client) (my : List Tx) (lbStop : Int) :
    reasonsFamTotal Family.corridor (scoreClient c my lbStop).reasons = 20 ↔
      corridorTrig my = true := by
  rw [reasonsFamTotal_scoreClient, famPoints_corridor_firedRules]
  split_ifs with h
  · exact iff_of_true rfl h
  · exact iff_of_false (by decide) h

theorem casesFor_corridor (win : List Tx) (cid : String) :
    ((casesFor win cid).any fun k => k.type == "corridor") = true ↔
      corridorTrig (win.filter fun t => t.client_id == cid) = true := by
  unfold casesFor corridorTrig
  by_cases h1 : hasNInWindow
      (sortByDate (cashInOf (win.filter fun t => t.client_id == cid))) 4 7 = true <;>
    by_cases h2 : ((corridorTxOf (win.filter fun t => t.client_id == cid)).length ≥ 2 &&
      (corridorTxOf (win.filter fun t => t.client_id == cid)).any
        fun t => t.amount ≥ 20000) = true <;>
    by_cases h3 : (!((win.filter fun t => t.client_id == cid).filter
        largeDomesticPred).isEmpty) = true <;>
    simp [h1, h2, h3] <;>
    (intro x; intros; subst_vars; simp_all)

theorem corridorCase_buildCases_iff (txs : List Tx) (lb : Lookback) (cid : String) :
    ((buildCases txs lb).any fun k => k.type == "corridor" && k.client_id == cid) = true ↔
      corridorTrig (myTxOf txs lb cid) = true := by
  constructor
  · intro h
    obtain ⟨k, hk, hp⟩ := List.any_eq_true.mp h
    simp only [Bool.and_eq_true, beq_iff_eq] at hp
    obtain ⟨cid2, _hded, hkmem⟩ := List.mem_flatMap.mp hk
    have hcid : cid2 = cid := (casesFor_client_id _ _ _ hkmem ▸ hp.2)
    subst hcid
    have hany : ((casesFor (txs.filter (inWindow lb)) cid2).any
        fun k => k.type == "corridor") = true :=
      List.any_eq_true.mpr ⟨k, hkmem, by simp [hp.1]⟩
    have := (casesFor_corridor _ _).mp hany
    rwa [case_list_eq_myTxOf] at this
  · intro h
    have h2 : 2 ≤ (corridorTxOf (myTxOf txs lb cid)).length := ((corridorTrig_iff _).mp h).1
    have hne : corridorTxOf (myTxOf txs lb cid) ≠ [] := by
      intro he
      rw [he] at h2
      simp at h2
    obtain ⟨t, ht⟩ := List.exists_mem_of_ne_nil _ hne
    have htm : t ∈ myTxOf txs lb cid := List.mem_of_mem_filter ht
    have hsplit := List.mem_filter.mp htm
    rw [Bool.and_eq_true, beq_iff_eq] at hsplit
    have htw : t ∈ txs.filter (inWindow lb) := List.mem_filter.mpr ⟨hsplit.1, hsplit.2.1⟩
    have hded : cid ∈ dedupFirst ((txs.filter (inWindow lb)).map (·.client_id)) :=
      mem_dedupFirst (List.mem_map.mpr ⟨t, htw, hsplit.2.2⟩)
    have hany : ((casesFor (txs.filter (inWindow lb)) cid).any
        fun k => k.type == "corridor") = true := by
      apply (casesFor_corridor _ _).mpr
      rw [case_list_eq_myTxOf]
      exact h
    obtain ⟨k, hkmem, hktype⟩ := List.any_eq_true.mp hany
    apply List.any_eq_true.mpr
    refine ⟨k, List.mem_flatMap.mpr ⟨cid, hded, hkmem⟩, ?_⟩
    simp only [Bool.and_eq_true, beq_iff_eq]
    exact ⟨by simpa using hktype, casesFor_client_id _ _ _ hkmem⟩

def ruTx (a : ℚ) (d : Int) : Tx :=
  { client_id := "c2", date := d, amount := a, direction := some "out",
    counterparty_country := some "RU" }

def ruClient : Client := { client_id := some "c2" }
def ruLb : Lookback := { start := 0, stop := 100 }

unseal Rat.sub Rat.mul Rat.inv Rat.add in
/-- Claim C3: for every client, the +20 corridor rule (and the `corridor`
case) triggers exactly when the client has at least 2 in-window outbound
transactions to a corridor country (RU, CN, HK, AE, IN, IR) of which at
least one has amount at least 20000; two outbound RU transfers of 5000
and 5000 do not trigger it, while 25000 and 1000 do. -/
theorem claim_C3 (c : Client) (txs : List Tx) (lb : Lookback) :
    (reasonsFamTotal Family.corridor
        (scoreClient c (myTxOf txs lb (cidOf c)) lb.stop).reasons = 20 ↔
      2 ≤ (corridorTxOf (myTxOf txs lb (cidOf c))).length ∧
        ∃ t ∈ corridorTxOf (myTxOf txs lb (cidOf c)), 20000 ≤ t.amount) ∧
    (((buildCases txs lb).any
        fun k => k.type == "corridor" && k.client_id == cidOf c) = true ↔
      2 ≤ (corridorTxOf (myTxOf txs lb (cidOf c))).length ∧
        ∃ t ∈ corridorTxOf (myTxOf txs lb (cidOf c)), 20000 ≤ t.amount) ∧
    (reasonsFamTotal Family.corridor (scoreClient ruClient
        (myTxOf [ruTx 5000 1, ruTx 5000 2] ruLb (cidOf ruClient)) ruLb.stop).reasons = 0 ∧
      ((buildCases [ruTx 5000 1, ruTx 5000 2] ruLb).any
        fun k => k.type == "corridor" && k.client_id == cidOf ruClient) = false) ∧
    (reasonsFamTotal Family.corridor (scoreClient ruClient
        (myTxOf [ruTx 25000 1, ruTx 1000 2] ruLb (cidOf ruClient)) ruLb.stop).reasons = 20 ∧
      ((buildCases [ruTx 25000 1, ruTx 1000 2] ruLb).any
        fun k => k.type == "corridor" && k.client_id == cidOf ruClient) = true) := by
  refine ⟨?_, ?_, ⟨by decide, by decide⟩, ⟨by decide, by decide⟩⟩
  · exact (corridor_total_iff c (myTxOf txs lb (cidOf c)) lb.stop).trans (corridorTrig_iff _)
  · exact (corridorCase_buildCases_iff txs lb (cidOf c)).trans (corridorTrig_iff _)

theorem filterMap_if_none {α β : Type} (l : List α) (cond : α → Bool) (g : α → β) :
    (l.filterMap fun a => if cond a then none else some (g a)) =
      (l.filter fun a => !cond a).map g := by
  induction l with
  | nil => rfl
  | cons a l ih =>
    by_cases h : cond a = true <;> simp [List.filterMap_cons, List.filter_cons, h, ih]

theorem sample_from_take_map {l sub : List Tx} (hsub : ∀ t ∈ sub, t ∈ l) {s : SampleTx}
    (hs : s ∈ (sub.take 5).map pickTx) : ∃ t ∈ l, s = pickTx t := by
  obtain ⟨t, ht, rfl⟩ := List.mem_map.mp hs
  exact ⟨t, hsub t (List.take_subset _ _ ht), rfl⟩

/-- Every sample carried by any case refers to a transaction of the input
list. -/
theorem buildCases_samples (txs : List Tx) (lb : Lookback) :
    ∀ k ∈ buildCases txs lb, ∀ s ∈ k.samples, ∃ t ∈ txs, s = pickTx t := by
  intro k hk s hs
  obtain ⟨cid, _hc, hkmem⟩ := List.mem_flatMap.mp hk
  have base : ∀ t ∈ (txs.filter (inWindow lb)).filter fun u => u.client_id == cid, t ∈ txs :=
    fun t ht => List.mem_of_mem_filter (List.mem_of_mem_filter ht)
  simp only [casesFor, List.mem_append, mem_if_singleton] at hkmem
  rcases hkmem with (⟨_, hke⟩ | ⟨_, hke⟩) | ⟨_, hke⟩ <;> subst hke <;> simp only at hs
  · refine sample_from_take_map (fun t ht => ?_) hs
    exact base t (List.mem_of_mem_filter ((List.mem_insertionSort _).mp ht))
  · exact sample_from_take_map (fun t ht => base t (List.mem_of_mem_filter ht)) hs
  · exact sample_from_take_map (fun t ht => base t (List.mem_of_mem_filter ht)) hs

/-- Claim C4: a transaction row is accepted exactly when its `client_id`
is non-empty, its date parses to a valid calendar date, and its coerced
amount is finite (`some`); every other row lands in `rejects` as
`{index, reason, row}` with the original row; accepted transactions are
exactly the coercions of the accepted rows; and every case sample refers
to an accepted transaction. -/
theorem claim_C4 (rows : List RawTx) (nowDay : Int) (lb : Lookback) :
    (∀ r ∈ rows, (coerceTxRow r).isSome = true ↔
      (r.client_id.getD "" ≠ "" ∧ (r.date.bind parseISODate).isSome = true ∧
        (r.amount.bind jsNumberOfString).isSome = true)) ∧
    (normalizeTransactions rows nowDay).txs = rows.filterMap coerceTxRow ∧
    (normalizeTransactions rows nowDay).rejects =
      ((rows.enum.filter fun p => !(coerceTxRow p.2).isSome).map
        fun p => { index := p.1, reason := "Missing client_id/date/amount", row := p.2 }) ∧
    (∀ t ∈ (normalizeTransactions rows nowDay).txs, ∃ r ∈ rows, coerceTxRow r = some t) ∧
    (∀ k ∈ buildCases (normalizeTransactions rows nowDay).txs lb,
      ∀ s ∈ k.samples, ∃ t ∈ (normalizeTransactions rows nowDay).txs, s = pickTx t) := by
  refine ⟨?_, rfl, ?_, ?_, ?_⟩
  · intro r _hr
    rcases hd : r.date.bind parseISODate with _ | d <;>
      rcases ha : r.amount.bind jsNumberOfString with _ | a <;>
      simp only [coerceTxRow, hd, ha, Option.isSome_none, Option.isSome_some] <;>
      by_cases hc : r.client_id.getD "" = "" <;>
      simp [hc]
  · simp only [normalizeTransactions]
    exact filterMap_if_none _ _ _
  · intro t ht
    exact List.mem_filterMap.mp ht
  · exact buildCases_samples _ lb

def c4row : RawTx := { client_id := some "a", date := some "2024-01-02", amount := some "10" }

/-- Witness for C4 at a concrete accepted row. -/
theorem claim_C4_witness :
    ((coerceTxRow c4row).isSome = true ↔
      (c4row.client_id.getD "" ≠ "" ∧ (c4row.date.bind parseISODate).isSome = true ∧
        (c4row.amount.bind jsNumberOfString).isSome = true)) ∧
    (normalizeTransactions [c4row] 0).txs = [c4row].filterMap coerceTxRow :=
  ⟨(claim_C4 [c4row] 0 wLb).1 c4row (by simp), (claim_C4 [c4row] 0 wLb).2.1⟩

def negRow : RawTx :=
  { client_id := some "c9", date := some "2024-01-02", amount := some "-500" }

unseal Rat.sub Rat.mul Rat.inv Rat.add in
/-- Counterexample to claim C5: the coercer performs no sign check, so a
row with amount `-500` is accepted and the accepted transaction carries a
negative amount. -/
theorem claim_C5_counterexample :
    ∃ t ∈ (normalizeTransactions [negRow] 0).txs, t.amount < 0 := by decide

/-- Claim C5 (amended): every accepted transaction's amount is the
successful (finite) numeric coercion of its raw amount field; no
non-negativity is enforced. -/
theorem claim_C5_amended (rows : List RawTx) (nowDay : Int) :
    ∀ t ∈ (normalizeTransactions rows nowDay).txs,
      ∃ r ∈ rows, r.amount.bind jsNumberOfString = some t.amount := by
  intro t ht
  have hmem : t ∈ rows.filterMap coerceTxRow := ht
  obtain ⟨r, hr, hcr⟩ := List.mem_filterMap.mp hmem
  refine ⟨r, hr, ?_⟩
  unfold coerceTxRow at hcr
  rcases hd : r.date.bind parseISODate with _ | d <;> rw [hd] at hcr <;>
    rcases ha : r.amount.bind jsNumberOfString with _ | a <;> rw [ha] at hcr <;>
    simp only at hcr
  · cases hcr
  · cases hcr
  · cases hcr
  · split at hcr
    · cases hcr
    · obtain rfl := Option.some_inj.mp hcr.symm
      rfl

instance : Inhabited Tx := ⟨{}⟩

/-- Witness for the amended C5 at a concrete batch. -/
theorem claim_C5_amended_witness :
    ∃ r ∈ [negRow], r.amount.bind jsNumberOfString =
      some ((normalizeTransactions [negRow] 0).txs.headD default).amount := by
  have h := claim_C5_amended [negRow] 0
  exact h ((normalizeTransactions [negRow] 0).txs.headD default) (by decide)

theorem buildManifest_files (namedFiles : List (String × List Nat)) (rm : Option RulesMeta)
    (signKey : String) (signer : String → List Nat → Option (List Nat)) (now : String) :
    (buildManifest namedFiles rm signKey signer now).files =
      namedFiles.map fun nb =>
        { name := nb.1, bytes := nb.2.length, sha256 := sha256Hex nb.2 } := by
  unfold buildManifest
  dsimp only
  split
  · rfl
  · split <;> rfl

def cjBytes : List Nat := [91, 32, 93]
def cjFlip : List Nat := [91, 33, 93]
def kjBytes : List Nat := [110, 117, 108, 108]
def nosign : String → List Nat → Option (List Nat) := fun _ _ => none

/-- Claim C6: the manifest's `files` sequence has exactly one entry per
input artifact (and none for the manifest itself), recording the name,
byte length and hex SHA-256 of the content; entry `i` depends only on
artifact `i`, so changing one artifact leaves every other entry
unchanged; and at the spec's concrete test, flipping one byte of
`clients.json` changes that entry's hash and no other entry. -/
theorem claim_C6 (namedFiles : List (String × List Nat)) (rm : Option RulesMeta)
    (signKey : String) (signer : String → List Nat → Option (List Nat)) (now : String) :
    ((buildManifest namedFiles rm signKey signer now).files =
      namedFiles.map fun nb =>
        { name := nb.1, bytes := nb.2.length, sha256 := sha256Hex nb.2 }) ∧
    (∀ (files2 : List (String × List Nat)) (i : Nat),
      files2[i]? = namedFiles[i]? →
      ((buildManifest files2 rm signKey signer now).files)[i]? =
        ((buildManifest namedFiles rm signKey signer now).files)[i]?) ∧
    (sha256Hex cjBytes ≠ sha256Hex cjFlip ∧
      ((buildManifest [("clients.json", cjFlip), ("cases.json", kjBytes)]
          none "" nosign "t0").files)[1]? =
        ((buildManifest [("clients.json", cjBytes), ("cases.json", kjBytes)]
          none "" nosign "t0").files)[1]? ∧
      (((buildManifest [("clients.json", cjFlip), ("cases.json", kjBytes)]
          none "" nosign "t0").files)[0]?).map (fun e => e.name) =
        (((buildManifest [("clients.json", cjBytes), ("cases.json", kjBytes)]
          none "" nosign "t0").files)[0]?).map (fun e => e.name) ∧
      (((buildManifest [("clients.json", cjFlip), ("cases.json", kjBytes)]
          none "" nosign "t0").files)[0]?).map (fun e => e.sha256) ≠
        (((buildManifest [("clients.json", cjBytes), ("cases.json", kjBytes)]
          none "" nosign "t0").files)[0]?).map (fun e => e.sha256)) := by
  refine ⟨buildManifest_files _ _ _ _ _, ?_, by decide, by decide, by decide, by decide⟩
  intro files2 i hi
  rw [buildManifest_files, buildManifest_files, List.getElem?_map, List.getElem?_map, hi]

/-- Claim C7: `buildManifest` never fails due to signing. With no key
configured the manifest is complete and has no signing block; with a key,
a successful detached signature over the canonical JSON serialization of
`{files, created_utc, ruleset_id}` is attached as
`{algorithm, key_id, signature}`; a signing error is swallowed and yields
exactly the unsigned manifest. -/
theorem claim_C7 (namedFiles : List (String × List Nat)) (rm : Option RulesMeta)
    (signer : String → List Nat → Option (List Nat)) (now : String) :
    ((buildManifest namedFiles rm "" signer now).signing = none) ∧
    (buildManifest namedFiles rm "" signer now =
      { schema := "trancheready.manifest.v1", created_utc := now, app_version := "1.0.0",
        ruleset_id := jsOrStr (rm.map (·.id)) "dnfbp-starter", hash_algo := "sha256",
        files := namedFiles.map fun nb =>
          { name := nb.1, bytes := nb.2.length, sha256 := sha256Hex nb.2 },
        signing := none }) ∧
    (∀ signKey, signKey ≠ "" →
      signer signKey (signingPayloadBytes
          (namedFiles.map fun nb =>
            { name := nb.1, bytes := nb.2.length, sha256 := sha256Hex nb.2 })
          now (jsOrStr (rm.map (·.id)) "dnfbp-starter")) = none →
      buildManifest namedFiles rm signKey signer now =
        buildManifest namedFiles rm "" signer now) ∧
    (∀ signKey sig, signKey ≠ "" →
      signer signKey (signingPayloadBytes
          (namedFiles.map fun nb =>
            { name := nb.1, bytes := nb.2.length, sha256 := sha256Hex nb.2 })
          now (jsOrStr (rm.map (·.id)) "dnfbp-starter")) = some sig →
      buildManifest namedFiles rm signKey signer now =
        { buildManifest namedFiles rm "" signer now with
            signing := some { alg := "ed25519", key_id := "trancheready",
                              signature := base64 sig } }) := by
  refine ⟨?_, ?_, ?_, ?_⟩
  · simp [buildManifest]
  · simp [buildManifest]
  · intro signKey hk hs
    simp only [buildManifest]
    rw [if_neg (by simpa using hk)]
    simp only [hs]
    rfl
  · intro signKey sig hk hs
    simp only [buildManifest]
    rw [if_neg (by simpa using hk)]
    simp only [hs]
    rfl

def sigOk : String → List Nat → Option (List Nat) := fun _ _ => some [1, 2, 3]

/-- Witness for C7: a failing signer yields exactly the unsigned
manifest, and a succeeding signer attaches the signature block. -/
theorem claim_C7_witness :
    (buildManifest [] none "" nosign "t").signing = none ∧
    buildManifest [] none "k" nosign "t" = buildManifest [] none "" nosign "t" ∧
    buildManifest [] none "k" sigOk "t" =
      { buildManifest [] none "" sigOk "t" with
          signing := some { alg := "ed25519", key_id := "trancheready",
                            signature := base64 [1, 2, 3] } } :=
  ⟨(claim_C7 [] none nosign "t").1,
   (claim_C7 [] none nosign "t").2.2.1 "k" (by decide) rfl,
   (claim_C7 [] none sigOk "t").2.2.2 "k" [1, 2, 3] (by decide) rfl⟩

theorem objInsert_key_mem (o : List (String × String)) (k v : String) :
    k ∈ (objInsert o k v).map Prod.fst := by
  unfold objInsert
  split
  · next h =>
    obtain ⟨p, hp, hpk⟩ := List.any_eq_true.mp h
    apply List.mem_map.mpr
    refine ⟨if p.1 == k then (p.1, v) else p, List.mem_map.mpr ⟨p, hp, rfl⟩, ?_⟩
    rw [if_pos hpk]
    simpa using hpk
  · simp

theorem objInsert_keys_mono (o : List (String × String)) (k v a : String)
    (h : a ∈ o.map Prod.fst) : a ∈ (objInsert o k v).map Prod.fst := by
  unfold objInsert
  split
  · obtain ⟨p, hp, rfl⟩ := List.mem_map.mp h
    apply List.mem_map.mpr
    refine ⟨if p.1 == k then (p.1, v) else p, List.mem_map.mpr ⟨p, hp, rfl⟩, ?_⟩
    split <;> rfl
  · simp [h]

theorem objInsert_not_mem (o : List (String × String)) (k v : String)
    (h : k ∉ o.map Prod.fst) : objInsert o k v = o ++ [(k, v)] := by
  unfold objInsert
  split
  · next hc =>
    obtain ⟨p, hp, hpk⟩ := List.any_eq_true.mp hc
    exact absurd (List.mem_map.mpr ⟨p, hp, by simpa using hpk⟩) h
  · rfl

theorem foldl_objInsert_preserve (dict : List (String × List String))
    (row : List (String × String)) :
    ∀ (acc : List (String × String)) (a : String), a ∈ acc.map Prod.fst →
      a ∈ (row.foldl (fun out q => objInsert out (resolveHeader dict q.1) q.2) acc).map
        Prod.fst := by
  induction row with
  | nil => intro acc a h; exact h
  | cons q row ih =>
    intro acc a h
    exact ih _ a (objInsert_keys_mono _ _ _ _ h)

theorem mapHeaders_key_mem (dict : List (String × List String)) :
    ∀ (row acc : List (String × String)), ∀ p ∈ row,
      resolveHeader dict p.1 ∈
        (row.foldl (fun out q => objInsert out (resolveHeader dict q.1) q.2) acc).map
          Prod.fst := by
  intro row
  induction row with
  | nil => intro acc p hp; cases hp
  | cons q row ih =>
    intro acc p hp
    rcases List.mem_cons.mp hp with rfl | hp'
    · exact foldl_objInsert_preserve dict row _ _ (objInsert_key_mem acc _ _)
    · exact ih _ p hp'

theorem mapHeaders_nodup (dict : List (String × List String)) :
    ∀ (row acc : List (String × String)),
      (row.map fun p => resolveHeader dict p.1).Nodup →
      (∀ p ∈ row, resolveHeader dict p.1 ∉ acc.map Prod.fst) →
      row.foldl (fun out q => objInsert out (resolveHeader dict q.1) q.2) acc =
        acc ++ row.map fun p => (resolveHeader dict p.1, p.2) := by
  intro row
  induction row with
  | nil => intro acc _ _; simp
  | cons q row ih =>
    intro acc hnd hfresh
    have hq : resolveHeader dict q.1 ∉ acc.map Prod.fst := hfresh q (by simp)
    simp only [List.foldl_cons]
    rw [objInsert_not_mem _ _ _ hq,
      ih (acc ++ [(resolveHeader dict q.1, q.2)]) (List.nodup_cons.mp hnd).2 ?fresh]
    · simp
    case fresh =>
      intro p hp
      simp only [List.map_append, List.mem_append]
      rintro (h | h)
      · exact hfresh p (List.mem_cons_of_mem _ hp) h
      · simp only [List.map_cons, List.map_nil, List.mem_singleton] at h
        exact (List.nodup_cons.mp hnd).1 (List.mem_map.mpr ⟨p, hp, h⟩)

/-- Counterexample to claim C8: two unmatched columns whose lower-cased
names collide merge into one column, so the first column's value does not
pass through — a column is dropped. -/
theorem claim_C8_counterexample :
    mapHeaders [("Foo", "A"), ("foo", "B")] CLIENT_MAP = [("foo", "B")] ∧
    ∀ p ∈ mapHeaders [("Foo", "A"), ("foo", "B")] CLIENT_MAP, p.2 ≠ "A" := by
  refine ⟨by decide, by decide⟩

/-- Claim C8 (amended): header normalization lower-cases and trims each
column name and resolves it by the first matching canonical name,
unmatched names passing through lower-cased; every column's resolved name
appears among the output columns, and when no two columns resolve to the
same name every column passes through with its value; when several
columns collide they merge into one (so a value can be lost); the audit
mapping records original header to canonical name from the first row; and
`CustomerID` resolves to `client_id` on the client sheet. -/
theorem claim_C8_amended (row : List (String × String)) (dict : List (String × List String)) :
    (∀ p ∈ row, resolveHeader dict p.1 ∈ (mapHeaders row dict).map Prod.fst) ∧
    ((row.map fun p => resolveHeader dict p.1).Nodup →
      mapHeaders row dict = row.map fun p => (resolveHeader dict p.1, p.2)) ∧
    (∀ (r : List (String × String)) (rest : List (List (String × String))),
      recordHeaderMap (r :: rest) dict = r.map fun p => (p.1, resolveHeader dict p.1)) ∧
    resolveHeader CLIENT_MAP "CustomerID" = "client_id" := by
  refine ⟨?_, ?_, fun r rest => rfl, by decide⟩
  · intro p hp
    exact mapHeaders_key_mem dict row [] p hp
  · intro hnd
    simpa using mapHeaders_nodup dict row [] hnd (by simp)

/-- Witness for the amended C8 at a concrete client-sheet row. -/
theorem claim_C8_amended_witness :
    (∀ p ∈ [("CustomerID", "7"), ("Notes", "x")],
      resolveHeader CLIENT_MAP p.1 ∈
        (mapHeaders [("CustomerID", "7"), ("Notes", "x")] CLIENT_MAP).map Prod.fst) ∧
    mapHeaders [("CustomerID", "7"), ("Notes", "x")] CLIENT_MAP =
      [("CustomerID", "7"), ("Notes", "x")].map fun p => (resolveHeader CLIENT_MAP p.1, p.2) :=
  ⟨(claim_C8_amended [("CustomerID", "7"), ("Notes", "x")] CLIENT_MAP).1,
   (claim_C8_amended [("CustomerID", "7"), ("Notes", "x")] CLIENT_MAP).2.1 (by decide)⟩

/-- The scores-and-cases pipeline as `server.js` composes it, with the
clock injected. -/
def pipelineRun (clients : List Client) (rows : List RawTx) (nowDay : Int) :
    List ScoreRec × List Case :=
  ((scoreAll clients (normalizeTransactions rows nowDay).txs
      (normalizeTransactions rows nowDay).lookback).1,
   buildCases (normalizeTransactions rows nowDay).txs
     (normalizeTransactions rows nowDay).lookback)

def kycClient : Client :=
  { client_id := some "k1", kyc_last_reviewed_at := some "2020-01-01" }

unseal Rat.sub Rat.mul Rat.inv Rat.add in
/-- Counterexample to claim C9: with no accepted transaction the lookback
end falls back to the invocation clock, and the KYC-staleness rule reads
it, so two invocations of the pipeline on the same (clients,
transactions) at different instants return different scores. -/
theorem claim_C9_counterexample :
    pipelineRun [kycClient] [] 18362 ≠ pipelineRun [kycClient] [] 18662 := by decide

theorem foldl_latestStep_some (l : List Tx) :
    ∀ a : Int, (l.foldl latestStep (some a)).isSome = true := by
  induction l with
  | nil => intro a; rfl
  | cons t ts ih =>
    intro a
    simp only [List.foldl_cons, latestStep]
    split <;> exact ih _

theorem latestTxDate_isSome (txs : List Tx) (h : txs ≠ []) :
    (latestTxDate txs).isSome = true := by
  rcases txs with _ | ⟨t, ts⟩
  · exact absurd rfl h
  · unfold latestTxDate
    simp only [List.foldl_cons, latestStep]
    exact foldl_latestStep_some ts t.date

/-- Claim C9 (amended): at a fixed invocation instant the pipeline is a
pure function of (clients, transactions), so repeated runs agree; and
whenever at least one transaction is accepted, the scores and cases are
additionally independent of the invocation instant (with no accepted
transaction the lookback end is the clock and KYC-staleness scoring can
change, and the `program.html` artifact and `created_utc` always embed
the timestamp). -/
theorem claim_C9_amended (clients : List Client) (rows : List RawTx) (d1 d2 : Int) :
    pipelineRun clients rows d1 = pipelineRun clients rows d1 ∧
    ((normalizeTransactions rows d1).txs ≠ [] →
      pipelineRun clients rows d1 = pipelineRun clients rows d2) := by
  refine ⟨rfl, fun hne => ?_⟩
  have hsome : (latestTxDate (rows.filterMap coerceTxRow)).isSome = true :=
    latestTxDate_isSome _ hne
  obtain ⟨m, hm⟩ := Option.isSome_iff_exists.mp hsome
  unfold pipelineRun
  simp [normalizeTransactions, hm]

/-- Witness for the amended C9 at a concrete accepted batch. -/
theorem claim_C9_amended_witness :
    pipelineRun [kycClient] [c4row] 18362 = pipelineRun [kycClient] [c4row] 18662 :=
  (claim_C9_amended [kycClient] [c4row] 18362 18662).2 (by decide)

/-- Witness for C6: the per-entry law and the locality law instantiated
at concrete bundles. -/
theorem claim_C6_witness :
    ((buildManifest [("clients.json", cjBytes)] none "" nosign "t0").files =
      [("clients.json", cjBytes)].map fun nb =>
        { name := nb.1, bytes := nb.2.length, sha256 := sha256Hex nb.2 }) ∧
    ((buildManifest [("clients.json", cjFlip)] none "" nosign "t0").files)[1]? =
      ((buildManifest [("clients.json", cjBytes)] none "" nosign "t0").files)[1]? :=
  ⟨(claim_C6 [("clients.json", cjBytes)] none "" nosign "t0").1,
   (claim_C6 [("clients.json", cjBytes)] none "" nosign "t0").2.1
     [("clients.json", cjFlip)] 1 (by decide)⟩
